import Mathlib

/-!
Verification of the "Prep Talk" chat client's core logic: a shallow
embedding of the persistence helpers (`saveGlobalMessage`,
`getDirectChatId`), the multi-tab sync reconciler (`syncData`), the
send path (`handleSendMessage` / `translateMessage`), and local
message deletion, translated from `src/App.tsx` and
`src/services/geminiService.ts`.
-/

set_option maxHeartbeats 1000000
set_option maxRecDepth 4000

namespace PrepTalk

/-- `MessageType` from `types.ts`. -/
inductive MessageType where
  | TEXT | IMAGE | VIDEO | AUDIO | STICKER
deriving DecidableEq, Repr

/-- The `type` field of a `Chat` from `types.ts`. -/
inductive ChatType where
  | direct | group | channel
deriving DecidableEq, Repr

/-- `User` from `types.ts`. -/
structure User where
  id : String
  nickname : String
  avatarUrl : Option String := none
  language : String
  isBlocked : Option Bool := none
deriving DecidableEq, Repr

/-- `Message` from `types.ts`.  Timestamps (`Date.now()` values) are
modelled as naturals. -/
structure Message where
  id : String
  senderId : String
  recipientId : Option String := none
  content : String
  type : MessageType
  timestamp : Nat
  isEdited : Option Bool := none
  translatedContent : Option String := none
deriving DecidableEq, Repr

/-- `Chat` from `types.ts`. -/
structure Chat where
  id : String
  name : String
  type : ChatType
  participants : List User
  messages : List Message
  avatarUrl : Option String := none
  unreadCount : Nat
  lastMessage : Option Message := none
deriving DecidableEq, Repr

/-- `getDirectChatId` (App.tsx): `[uid1, uid2].sort().join('_')`.
JavaScript's default sort on two strings keeps the array as is when
`uid1 <= uid2` (UTF-16 lexicographic order) and swaps otherwise. -/
def getDirectChatId (uid1 uid2 : String) : String :=
  if uid1 ≤ uid2 then uid1 ++ "_" ++ uid2 else uid2 ++ "_" ++ uid1

/-- `saveGlobalMessage` (App.tsx): push `msg`, then
`if (msgs.length > 1000) msgs.shift()`. -/
def saveGlobalMessage (msgs : List Message) (msg : Message) : List Message :=
  let pushed := msgs ++ [msg]
  if pushed.length > 1000 then pushed.tail else pushed

/-- JavaScript truthiness of the optional `recipientId` string:
`undefined` and the empty string are falsy. -/
def truthyId : Option String → Bool
  | none => false
  | some s => !(s == "")

/-- The per-message attribution predicate inside `syncData`
(App.tsx, the `allMessages.filter` body): decides whether a global
message belongs to a chat. -/
def isAttributed (chat : Chat) (m : Message) : Bool :=
  match chat.type with
  | ChatType.direct =>
    let pIds := chat.participants.map User.id
    let isP1Sender := pIds.get? 0 == some m.senderId
    let isP2Sender := pIds.get? 1 == some m.senderId
    if truthyId m.recipientId then
      (isP1Sender && pIds.get? 1 == m.recipientId) ||
      (isP2Sender && pIds.get? 0 == m.recipientId)
    else
      (isP1Sender || isP2Sender) && chat.participants.any (fun p => !(p.id == m.senderId))
  | _ => false

/-- The new messages merged into a chat by `syncData`: attributed
global messages whose id is not already present locally. -/
def newMessagesFor (allMessages : List Message) (chat : Chat) : List Message :=
  let chatMsgs := allMessages.filter (fun m => isAttributed chat m)
  let currentMsgIds := chat.messages.map Message.id
  chatMsgs.filter (fun m => !(currentMsgIds.contains m.id))

/-- The timestamp comparator passed to `Array.prototype.sort`
(`(a,b) => a.timestamp - b.timestamp`); the sort is stable per the
ECMAScript specification, modelled by `List.mergeSort`. -/
def tsLE (a b : Message) : Bool := a.timestamp ≤ b.timestamp

/-- The per-chat merge step of `syncData` (App.tsx): dedup by id,
append, stable sort by timestamp, update `lastMessage` and
`unreadCount`. -/
def mergeChat (user : User) (activeChatId : Option String) (allMessages : List Message)
    (chat : Chat) : Chat :=
  let newMsgs := newMessagesFor allMessages chat
  if newMsgs.length > 0 then
    let updatedMsgs := (chat.messages ++ newMsgs).mergeSort tsLE
    let addedCount := (newMsgs.filter (fun m => !(m.senderId == user.id))).length
    { chat with
      messages := updatedMsgs
      lastMessage := updatedMsgs.getLast?
      unreadCount :=
        if activeChatId ≠ some chat.id ∧ 0 < addedCount then
          chat.unreadCount + addedCount
        else chat.unreadCount }
  else chat

/-- The body of the `incomingMessages.forEach` loop in `syncData`
(App.tsx): resolve the sender in the global user registry and push a
synthesized direct chat unless a chat with the deterministic pair id
already exists. -/
def discoverStep (user : User) (allUsers : List User) (newChats : List Chat)
    (msg : Message) : List Chat :=
  match allUsers.find? (fun u => u.id == msg.senderId) with
  | some sender =>
    let chatId := getDirectChatId user.id sender.id
    if (newChats.find? (fun c => c.id == chatId)).isNone then
      newChats ++ [{ id := chatId
                     name := sender.nickname
                     type := ChatType.direct
                     participants := [user, sender]
                     messages := []
                     unreadCount := 0 }]
    else newChats
  | none => newChats

/-- The chat-discovery step of `syncData` (App.tsx): run
`discoverStep` over every global message addressed to the viewer. -/
def discoverChats (user : User) (allUsers : List User) (allMessages : List Message)
    (prevChats : List Chat) : List Chat :=
  (allMessages.filter (fun m => m.recipientId == some user.id)).foldl
    (discoverStep user allUsers) prevChats

/-- `syncData` (App.tsx): chat discovery followed by the per-chat
message merge. -/
def syncData (user : User) (activeChatId : Option String) (allUsers : List User)
    (allMessages : List Message) (prevChats : List Chat) : List Chat :=
  (discoverChats user allUsers allMessages prevChats).map
    (mergeChat user activeChatId allMessages)

/-- `translateMessage` (geminiService.ts).  The outcome of the remote
`generateContent` call is passed explicitly: `.error` models a
rejected call (caught inside this function), `.ok r` a response whose
optional `text` field is `r`; `response.text?.trim() || text` falls
back to the input on an absent or blank response. -/
def translateMessage (text targetLanguage : String)
    (apiResult : Except String (Option String)) : String :=
  match apiResult with
  | Except.ok r =>
    match r with
    | some s => if s.trim == "" then text else s.trim
    | none => text
  | Except.error _ => text ++ " (Translation Failed)"

/-- The message constructed by `handleSendMessage` (App.tsx): the
recipient and the auto-translation are only computed for direct
chats; translation requires a text message and a recipient whose
preferred language is nonempty and differs from the sender's.
`translateMessage` never rejects, so the surrounding `try`/`catch`
always takes the successful branch. -/
def buildMessage (user : User) (chat : Chat) (content : String) (mtype : MessageType)
    (newId : String) (now : Nat) (apiResult : Except String (Option String)) : Message :=
  if chat.type == ChatType.direct then
    let recipient := chat.participants.find? (fun p => !(p.id == user.id))
    let translated :=
      match recipient with
      | some r =>
        if mtype == MessageType.TEXT && !(r.language == "") && !(r.language == user.language)
        then some (translateMessage content r.language apiResult)
        else none
      | none => none
    { id := newId, senderId := user.id, recipientId := recipient.map User.id
      content := content, type := mtype, timestamp := now
      translatedContent := translated }
  else
    { id := newId, senderId := user.id, recipientId := none
      content := content, type := mtype, timestamp := now
      translatedContent := none }

/-- `handleSendMessage` (App.tsx), minus the asynchronous AI-bot
reply: bail out without an active chat, otherwise append the built
message to the active chat's local list and to the global log. -/
def handleSendMessage (user : User) (chats : List Chat) (activeChatId : Option String)
    (globalLog : List Message) (content : String) (mtype : MessageType)
    (newId : String) (now : Nat) (apiResult : Except String (Option String)) :
    Option (List Chat × List Message) :=
  match activeChatId with
  | none => none
  | some cid =>
    match chats.find? (fun c => c.id == cid) with
    | none => none
    | some activeChat =>
      let newMessage := buildMessage user activeChat content mtype newId now apiResult
      let chats' := chats.map (fun c =>
        if c.id == cid then
          { c with messages := c.messages ++ [newMessage], lastMessage := some newMessage }
        else c)
      some (chats', saveGlobalMessage globalLog newMessage)

/-- `onDeleteMessage` (App.tsx): remove the message with the given id
from the given chat's local message list only. -/
def deleteMessage (chats : List Chat) (chatId msgId : String) : List Chat :=
  chats.map (fun c =>
    if c.id == chatId then
      { c with messages := c.messages.filter (fun m => !(m.id == msgId)) }
    else c)

/-! ### Sample data used by witnesses -/

/-- Sample user. -/
def uA : User := { id := "a", nickname := "Alice", language := "English" }

/-- Sample user. -/
def uB : User := { id := "b", nickname := "Bob", language := "Spanish" }

/-- Sample message from `uA` to `uB`. -/
def mAB : Message :=
  { id := "g1", senderId := "a", recipientId := some "b"
    content := "hi", type := MessageType.TEXT, timestamp := 3 }

/-- Sample local message from `uB` to `uA`. -/
def mL1 : Message :=
  { id := "l1", senderId := "b", recipientId := some "a"
    content := "yo", type := MessageType.TEXT, timestamp := 5 }

/-- Sample direct chat between `uA` and `uB` with one local message. -/
def cAB : Chat :=
  { id := getDirectChatId "a" "b", name := "Bob", type := ChatType.direct
    participants := [uA, uB]
    messages := [mL1]
    unreadCount := 0 }

/-! ### C8: commutativity of the deterministic direct-chat id -/

/-- C8: the deterministic direct-chat id is commutative: for every
pair of user id strings, the id computed from `(a, b)` equals the id
computed from `(b, a)`. -/
theorem getDirectChatId_comm (a b : String) :
    getDirectChatId a b = getDirectChatId b a := by
  unfold getDirectChatId
  rcases lt_trichotomy a b with h | h | h
  · rw [if_pos h.le, if_neg (not_le.mpr h)]
  · subst h; simp
  · rw [if_neg (not_le.mpr h), if_pos h.le]

/-! ### C7: the 1000-entry cap of the global message log -/

/-- Single-step bound used for the repeated-append part of C7. -/
lemma saveGlobalMessage_length_le (msgs : List Message) (msg : Message)
    (h : msgs.length ≤ 1000) : (saveGlobalMessage msgs msg).length ≤ 1000 := by
  unfold saveGlobalMessage
  by_cases hc : (msgs ++ [msg]).length > 1000
  · rw [if_pos hc]
    simp only [List.length_tail, List.length_append, List.length_cons, List.length_nil] at *
    omega
  · rw [if_neg hc]
    omega

/-- The bound is an inductive invariant of repeated appends. -/
lemma foldl_saveGlobalMessage_le (pending : List Message) :
    ∀ msgs : List Message, msgs.length ≤ 1000 →
      (pending.foldl saveGlobalMessage msgs).length ≤ 1000 := by
  induction pending with
  | nil => intro msgs h; simpa using h
  | cons p ps ih =>
    intro msgs h
    simpa using ih (saveGlobalMessage msgs p) (saveGlobalMessage_length_le msgs p h)

/-- C7: if the stored global message log has at most 1000 entries,
`saveGlobalMessage` keeps it at most 1000; appending to a log of
exactly 1000 entries evicts exactly the oldest (front) entry; hence
the log never exceeds 1000 entries under repeated appends. -/
theorem saveGlobalMessage_cap (msgs : List Message) (msg : Message)
    (h : msgs.length ≤ 1000) :
    (saveGlobalMessage msgs msg).length ≤ 1000 ∧
    (msgs.length = 1000 → saveGlobalMessage msgs msg = msgs.tail ++ [msg]) ∧
    (∀ pending : List Message,
      (pending.foldl saveGlobalMessage msgs).length ≤ 1000) := by
  refine ⟨saveGlobalMessage_length_le msgs msg h, ?_, fun pending =>
    foldl_saveGlobalMessage_le pending msgs h⟩
  intro h1000
  unfold saveGlobalMessage
  have hgt : (msgs ++ [msg]).length > 1000 := by
    simp only [List.length_append, List.length_cons, List.length_nil]
    omega
  rw [if_pos hgt]
  cases msgs with
  | nil => simp at h1000
  | cons x xs => simp

/-- Witness for C7 at a log holding exactly 1000 entries. -/
theorem saveGlobalMessage_cap_witness :
    (saveGlobalMessage (List.replicate 1000 mAB) mAB).length ≤ 1000 ∧
    ((List.replicate 1000 mAB).length = 1000 →
      saveGlobalMessage (List.replicate 1000 mAB) mAB
        = (List.replicate 1000 mAB).tail ++ [mAB]) ∧
    (∀ pending : List Message,
      (pending.foldl saveGlobalMessage (List.replicate 1000 mAB)).length ≤ 1000) :=
  saveGlobalMessage_cap (List.replicate 1000 mAB) mAB
    (by rw [List.length_replicate])

/-! ### C4: unread accounting of the merge step -/

/-- C4: when the merge step merges the new messages of a chat, of
which `K` were not sent by the viewer, the unread counter increases
by exactly `K` when `K > 0` and the chat is not the active chat, and
is unchanged otherwise (active chat, or `K = 0`). -/
theorem mergeChat_unread (user : User) (activeChatId : Option String)
    (allMessages : List Message) (chat : Chat) :
    (mergeChat user activeChatId allMessages chat).unreadCount =
      if activeChatId ≠ some chat.id ∧
          0 < ((newMessagesFor allMessages chat).filter
                (fun m => !(m.senderId == user.id))).length then
        chat.unreadCount +
          ((newMessagesFor allMessages chat).filter
            (fun m => !(m.senderId == user.id))).length
      else chat.unreadCount := by
  unfold mergeChat
  by_cases h : (newMessagesFor allMessages chat).length > 0
  · rw [if_pos h]
  · rw [if_neg h]
    have hnil : newMessagesFor allMessages chat = [] :=
      List.eq_nil_of_length_eq_zero (by omega)
    rw [hnil]
    simp

/-! ### C5: stable sort by timestamp and the cached last message -/

/-- The timestamp comparator is transitive. -/
lemma tsLE_trans : ∀ a b c : Message, tsLE a b → tsLE b c → tsLE a c := by
  intro a b c hab hbc
  simp only [tsLE, decide_eq_true_eq] at *
  omega

/-- The timestamp comparator is total. -/
lemma tsLE_total : ∀ a b : Message, tsLE a b || tsLE b a := by
  intro a b
  simp only [tsLE, Bool.or_eq_true, decide_eq_true_eq]
  omega

/-- C5: for a chat that receives at least one new attributed message,
the merged list is a permutation of the old list plus the new
messages, sorted ascending by timestamp, the sort is stable (the
messages carrying any fixed timestamp appear exactly as in the
pre-sort concatenation), and the cached last-message reference is the
final element of the sorted list. -/
theorem mergeChat_sort (user : User) (activeChatId : Option String)
    (allMessages : List Message) (chat : Chat)
    (h : newMessagesFor allMessages chat ≠ []) :
    ((mergeChat user activeChatId allMessages chat).messages).Perm
        (chat.messages ++ newMessagesFor allMessages chat) ∧
    ((mergeChat user activeChatId allMessages chat).messages).Pairwise
        (fun a b => a.timestamp ≤ b.timestamp) ∧
    (∀ t : Nat,
      ((mergeChat user activeChatId allMessages chat).messages).filter
          (fun m => m.timestamp == t)
        = (chat.messages ++ newMessagesFor allMessages chat).filter
          (fun m => m.timestamp == t)) ∧
    (mergeChat user activeChatId allMessages chat).lastMessage
      = ((mergeChat user activeChatId allMessages chat).messages).getLast? := by
  have hpos : (newMessagesFor allMessages chat).length > 0 := List.length_pos.mpr h
  unfold mergeChat
  rw [if_pos hpos]
  refine ⟨List.mergeSort_perm _ _, ?_, ?_, rfl⟩
  · exact (List.sorted_mergeSort tsLE_trans tsLE_total _).imp
      (fun hab => by simpa [tsLE] using hab)
  · intro t
    set l := chat.messages ++ newMessagesFor allMessages chat with hl
    set p : Message → Bool := fun m => m.timestamp == t with hp
    have hmemfil : ∀ x ∈ l.filter p, x.timestamp = t := by
      intro x hx
      have := List.of_mem_filter hx
      simpa [hp] using this
    have hpair : (l.filter p).Pairwise (fun a b => tsLE a b) := by
      apply List.pairwise_of_forall_mem_list
      intro a ha b hb
      simp only [tsLE, decide_eq_true_eq]
      rw [hmemfil a ha, hmemfil b hb]
    have hsub : List.Sublist (l.filter p) (l.mergeSort tsLE) :=
      List.sublist_mergeSort tsLE_trans tsLE_total hpair (List.filter_sublist l)
    have hsub2 : List.Sublist ((l.filter p).filter p) ((l.mergeSort tsLE).filter p) :=
      List.Sublist.filter p hsub
    rw [List.filter_filter] at hsub2
    have hsame : List.Sublist (l.filter p) ((l.mergeSort tsLE).filter p) := by
      have : (fun a => p a && p a) = p := by
        funext a; cases hpa : p a <;> simp [hpa]
      rwa [this] at hsub2
    have hperm : ((l.mergeSort tsLE).filter p).Perm (l.filter p) :=
      (List.mergeSort_perm l tsLE).filter p
    exact (hsame.eq_of_length hperm.length_eq.symm).symm

/-- Witness for C5 on a concrete chat receiving one new message. -/
theorem mergeChat_sort_witness :
    ((mergeChat uB none [mAB] cAB).messages).Perm
        (cAB.messages ++ newMessagesFor [mAB] cAB) ∧
    ((mergeChat uB none [mAB] cAB).messages).Pairwise
        (fun a b => a.timestamp ≤ b.timestamp) ∧
    ((mergeChat uB none [mAB] cAB).messages).filter (fun m => m.timestamp == 3)
      = (cAB.messages ++ newMessagesFor [mAB] cAB).filter (fun m => m.timestamp == 3) ∧
    (mergeChat uB none [mAB] cAB).lastMessage
      = ((mergeChat uB none [mAB] cAB).messages).getLast? := by
  have h := mergeChat_sort uB none [mAB] cAB (by decide)
  exact ⟨h.1, h.2.1, h.2.2.1 3, h.2.2.2⟩

/-! ### C6: reconciliation never removes a chat -/

/-- One discovery step only ever appends synthesized chats, which
carry an empty message list. -/
lemma discoverStep_append (user : User) (allUsers : List User) (acc : List Chat)
    (msg : Message) :
    ∃ d : List Chat, discoverStep user allUsers acc msg = acc ++ d ∧
      ∀ c ∈ d, c.messages = [] := by
  unfold discoverStep
  cases hfind : allUsers.find? (fun u => u.id == msg.senderId) with
  | none => exact ⟨[], by simp⟩
  | some sender =>
    by_cases hnew : (acc.find? (fun c =>
        c.id == getDirectChatId user.id sender.id)).isNone
    · refine ⟨[{ id := getDirectChatId user.id sender.id
                 name := sender.nickname
                 type := ChatType.direct
                 participants := [user, sender]
                 messages := []
                 unreadCount := 0 }], ?_, ?_⟩
      · simp [hnew]
      · intro c hc
        simp only [List.mem_singleton] at hc
        subst hc; rfl
    · exact ⟨[], by simp [hnew]⟩

/-- Discovery only ever appends synthesized chats with empty message
lists. -/
lemma foldl_discoverStep_append (user : User) (allUsers : List User) :
    ∀ (msgs : List Message) (acc : List Chat),
      ∃ d : List Chat, msgs.foldl (discoverStep user allUsers) acc = acc ++ d ∧
        ∀ c ∈ d, c.messages = [] := by
  intro msgs
  induction msgs with
  | nil => intro acc; exact ⟨[], by simp⟩
  | cons msg rest ih =>
    intro acc
    obtain ⟨d1, hd1, hd1e⟩ := discoverStep_append user allUsers acc msg
    obtain ⟨d2, hd2, hd2e⟩ := ih (discoverStep user allUsers acc msg)
    refine ⟨d1 ++ d2, ?_, ?_⟩
    · rw [List.foldl_cons, hd2, hd1, List.append_assoc]
    · intro c hc
      rcases List.mem_append.mp hc with h | h
      · exact hd1e c h
      · exact hd2e c h

/-- `discoverChats` extends the previous chat collection. -/
lemma discoverChats_append (user : User) (allUsers : List User)
    (allMessages : List Message) (prevChats : List Chat) :
    ∃ d : List Chat,
      discoverChats user allUsers allMessages prevChats = prevChats ++ d ∧
      ∀ c ∈ d, c.messages = [] :=
  foldl_discoverStep_append user allUsers _ prevChats

/-- The merge step never changes a chat's id. -/
lemma mergeChat_id (user : User) (activeChatId : Option String)
    (allMessages : List Message) (chat : Chat) :
    (mergeChat user activeChatId allMessages chat).id = chat.id := by
  unfold mergeChat
  by_cases h : (newMessagesFor allMessages chat).length > 0
  · rw [if_pos h]
  · rw [if_neg h]

/-- The merge step leaves a chat without new attributable messages
unchanged. -/
lemma mergeChat_of_no_new (user : User) (activeChatId : Option String)
    (allMessages : List Message) (chat : Chat)
    (h : newMessagesFor allMessages chat = []) :
    mergeChat user activeChatId allMessages chat = chat := by
  unfold mergeChat
  rw [h]
  simp

/-- Against an empty global log nothing is attributed. -/
lemma newMessagesFor_nil (chat : Chat) : newMessagesFor [] chat = [] := by
  simp [newMessagesFor]

/-- C6: reconciliation never removes a chat: the merged image of
every previously held chat is in the result and keeps its id; a chat
with no newly attributable messages is returned unchanged; in
particular reconciling an empty global message collection returns the
previous chat collection itself. -/
theorem syncData_preserves_chats (user : User) (activeChatId : Option String)
    (allUsers : List User) (allMessages : List Message) (prevChats : List Chat) :
    (∀ c ∈ prevChats,
      mergeChat user activeChatId allMessages c
          ∈ syncData user activeChatId allUsers allMessages prevChats ∧
      (mergeChat user activeChatId allMessages c).id = c.id) ∧
    (∀ c : Chat, newMessagesFor allMessages c = [] →
      mergeChat user activeChatId allMessages c = c) ∧
    syncData user activeChatId allUsers [] prevChats = prevChats := by
  refine ⟨?_, fun c h => mergeChat_of_no_new user activeChatId allMessages c h, ?_⟩
  · intro c hc
    obtain ⟨d, hd, -⟩ := discoverChats_append user allUsers allMessages prevChats
    refine ⟨?_, mergeChat_id user activeChatId allMessages c⟩
    unfold syncData
    rw [hd]
    exact List.mem_map_of_mem _ (List.mem_append_left d hc)
  · unfold syncData discoverChats
    simp only [List.filter_nil, List.foldl_nil]
    have : ∀ c ∈ prevChats, mergeChat user activeChatId [] c = c := fun c _ =>
      mergeChat_of_no_new user activeChatId [] c (newMessagesFor_nil c)
    calc prevChats.map (mergeChat user activeChatId [])
        = prevChats.map id := List.map_congr_left this
      _ = prevChats := List.map_id prevChats

/-- Witness for C6 on a concrete chat collection. -/
theorem syncData_preserves_chats_witness :
    (mergeChat uB none [mAB] cAB ∈ syncData uB none [uA, uB] [mAB] [cAB] ∧
      (mergeChat uB none [mAB] cAB).id = cAB.id) ∧
    (newMessagesFor [mAB] cAB = [] → mergeChat uB none [mAB] cAB = cAB) ∧
    syncData uB none [uA, uB] [] [cAB] = [cAB] := by
  have h := syncData_preserves_chats uB none [uA, uB] [mAB] [cAB]
  have h' := syncData_preserves_chats uB none [uA, uB] [] [cAB]
  exact ⟨h.1 cAB (by simp), fun hnil => h.2.1 cAB hnil, h'.2.2⟩

/-! ### C3: idempotent merging, no duplicate ids -/

/-- `List.contains` on id strings is membership. -/
lemma contains_iff {l : List String} {a : String} :
    l.contains a = true ↔ a ∈ l := by
  simp [List.contains_eq_any_beq, List.any_eq_true, beq_iff_eq, eq_comm]

/-- A failed `contains` check excludes membership. -/
lemma contains_false_not_mem {l : List String} {a : String}
    (h : l.contains a = false) : a ∉ l := by
  intro hmem
  have h' := contains_iff.mpr hmem
  rw [h] at h'
  exact Bool.false_ne_true h'

/-- Attribution only looks at a chat's type and participants, so the
merge step does not change it. -/
lemma isAttributed_congr (c₁ c₂ : Chat) (m : Message)
    (ht : c₁.type = c₂.type) (hp : c₁.participants = c₂.participants) :
    isAttributed c₁ m = isAttributed c₂ m := by
  unfold isAttributed
  rw [ht, hp]

/-- After a merge, every attributed global message's id is present,
so a second merge finds nothing new. -/
lemma newMessagesFor_mergeChat (user : User) (activeChatId : Option String)
    (allMessages : List Message) (chat : Chat) :
    newMessagesFor allMessages (mergeChat user activeChatId allMessages chat) = [] := by
  by_cases h : (newMessagesFor allMessages chat).length > 0
  · have hmsgs : (mergeChat user activeChatId allMessages chat).messages
        = (chat.messages ++ newMessagesFor allMessages chat).mergeSort tsLE := by
      unfold mergeChat
      rw [if_pos h]
    have hatt : ∀ m : Message,
        isAttributed (mergeChat user activeChatId allMessages chat) m
          = isAttributed chat m := by
      intro m
      apply isAttributed_congr
      · unfold mergeChat
        by_cases h' : (newMessagesFor allMessages chat).length > 0
        · rw [if_pos h']
        · rw [if_neg h']
      · unfold mergeChat
        by_cases h' : (newMessagesFor allMessages chat).length > 0
        · rw [if_pos h']
        · rw [if_neg h']
    unfold newMessagesFor
    rw [List.filter_eq_nil_iff]
    intro m hm
    have hm' := List.of_mem_filter hm
    have hmem := List.mem_of_mem_filter hm
    rw [hatt m] at hm'
    simp only [Bool.not_eq_true', Bool.not_eq_false]
    rw [contains_iff]
    have hperm : ((mergeChat user activeChatId allMessages chat).messages.map
        Message.id).Perm ((chat.messages ++ newMessagesFor allMessages chat).map
          Message.id) := by
      rw [hmsgs]
      exact (List.mergeSort_perm _ _).map Message.id
    rw [hperm.mem_iff, List.map_append, List.mem_append]
    by_cases hin : (chat.messages.map Message.id).contains m.id = true
    · exact Or.inl (contains_iff.mp hin)
    · refine Or.inr ?_
      refine List.mem_map_of_mem Message.id ?_
      unfold newMessagesFor
      refine List.mem_filter.mpr ⟨List.mem_filter.mpr ⟨hmem, hm'⟩, ?_⟩
      simp only [Bool.not_eq_true']
      exact Bool.eq_false_iff.mpr hin
  · have hnil : newMessagesFor allMessages chat = [] :=
      List.eq_nil_of_length_eq_zero (by omega)
    rw [mergeChat_of_no_new user activeChatId allMessages chat hnil]
    exact hnil

/-- The merged message-id list of a chat stays duplicate-free when
the global log's ids are duplicate-free. -/
lemma mergeChat_nodup (user : User) (activeChatId : Option String)
    (allMessages : List Message) (chat : Chat)
    (hg : (allMessages.map Message.id).Nodup)
    (hc : (chat.messages.map Message.id).Nodup) :
    ((mergeChat user activeChatId allMessages chat).messages.map Message.id).Nodup := by
  by_cases h : (newMessagesFor allMessages chat).length > 0
  · have hmsgs : (mergeChat user activeChatId allMessages chat).messages
        = (chat.messages ++ newMessagesFor allMessages chat).mergeSort tsLE := by
      unfold mergeChat
      rw [if_pos h]
    rw [hmsgs]
    have hperm := ((List.mergeSort_perm
      (chat.messages ++ newMessagesFor allMessages chat) tsLE).map Message.id)
    rw [hperm.nodup_iff, List.map_append, List.nodup_append]
    refine ⟨hc, ?_, ?_⟩
    · have hsub : List.Sublist (newMessagesFor allMessages chat) allMessages := by
        unfold newMessagesFor
        exact (List.filter_sublist _).trans (List.filter_sublist _)
      exact hg.sublist (hsub.map Message.id)
    · intro x hx hy
      obtain ⟨mx, hmx, hmxid⟩ := List.mem_map.mp hy
      have hnot := List.of_mem_filter hmx
      simp only [Bool.not_eq_true'] at hnot
      rw [← hmxid] at hx
      exact contains_false_not_mem hnot hx
  · have hnil : newMessagesFor allMessages chat = [] :=
      List.eq_nil_of_length_eq_zero (by omega)
    rw [mergeChat_of_no_new user activeChatId allMessages chat hnil]
    exact hc

/-- Every chat produced by one reconciliation run has duplicate-free
message ids, given duplicate-free inputs. -/
lemma syncData_all_nodup (user : User) (activeChatId : Option String)
    (allUsers : List User) (allMessages : List Message) (prevChats : List Chat)
    (hg : (allMessages.map Message.id).Nodup)
    (hl : ∀ c ∈ prevChats, (c.messages.map Message.id).Nodup) :
    ∀ c ∈ syncData user activeChatId allUsers allMessages prevChats,
      (c.messages.map Message.id).Nodup := by
  intro c hcmem
  unfold syncData at hcmem
  obtain ⟨c₀, hc₀, rfl⟩ := List.mem_map.mp hcmem
  obtain ⟨d, hd, hde⟩ := discoverChats_append user allUsers allMessages prevChats
  rw [hd] at hc₀
  rcases List.mem_append.mp hc₀ with hmem | hmem
  · exact mergeChat_nodup user activeChatId allMessages c₀ hg (hl c₀ hmem)
  · refine mergeChat_nodup user activeChatId allMessages c₀ hg ?_
    rw [hde c₀ hmem]
    simp

/-- C3: reconciliation is idempotent with respect to message merging:
a global message whose id is already present in a chat is never
appended again (the number of its copies is unchanged), the per-chat
merge is idempotent, and running reconciliation twice on the same
global message collection (with duplicate-free message ids, as the
data model requires) yields no duplicate message ids in any chat. -/
theorem syncData_idempotent_nodup (user : User) (activeChatId : Option String)
    (allUsers : List User) (allMessages : List Message) (prevChats : List Chat)
    (hg : (allMessages.map Message.id).Nodup)
    (hl : ∀ c ∈ prevChats, (c.messages.map Message.id).Nodup) :
    (∀ (c : Chat) (m : Message), m.id ∈ c.messages.map Message.id →
      ((mergeChat user activeChatId allMessages c).messages.filter
          (fun x => x.id == m.id)).length
        = (c.messages.filter (fun x => x.id == m.id)).length) ∧
    (∀ c : Chat,
      mergeChat user activeChatId allMessages (mergeChat user activeChatId allMessages c)
        = mergeChat user activeChatId allMessages c) ∧
    (∀ c ∈ syncData user activeChatId allUsers allMessages
        (syncData user activeChatId allUsers allMessages prevChats),
      (c.messages.map Message.id).Nodup) := by
  refine ⟨?_, ?_, ?_⟩
  · intro c m hid
    by_cases h : (newMessagesFor allMessages c).length > 0
    · have hmsgs : (mergeChat user activeChatId allMessages c).messages
          = (c.messages ++ newMessagesFor allMessages c).mergeSort tsLE := by
        unfold mergeChat
        rw [if_pos h]
      rw [hmsgs]
      rw [((List.mergeSort_perm _ tsLE).filter _).length_eq]
      rw [List.filter_append]
      have : (newMessagesFor allMessages c).filter (fun x => x.id == m.id) = [] := by
        rw [List.filter_eq_nil_iff]
        intro x hx
        have hnot := List.of_mem_filter hx
        simp only [Bool.not_eq_true'] at hnot
        intro hxid
        have hxm : x.id = m.id := by simpa using hxid
        rw [← hxm] at hid
        exact contains_false_not_mem hnot hid
      rw [this, List.append_nil]
    · rw [mergeChat_of_no_new user activeChatId allMessages c
        (List.eq_nil_of_length_eq_zero (by omega))]
  · intro c
    exact mergeChat_of_no_new user activeChatId allMessages _
      (newMessagesFor_mergeChat user activeChatId allMessages c)
  · exact syncData_all_nodup user activeChatId allUsers allMessages _ hg
      (syncData_all_nodup user activeChatId allUsers allMessages prevChats hg hl)

/-- Witness for C3 on concrete data. -/
theorem syncData_idempotent_nodup_witness :
    ((mergeChat uB none [mAB] cAB).messages.filter (fun x => x.id == "l1")).length
      = (cAB.messages.filter (fun x => x.id == "l1")).length ∧
    mergeChat uB none [mAB] (mergeChat uB none [mAB] cAB) = mergeChat uB none [mAB] cAB ∧
    (mergeChat uB none [mAB] cAB
        ∈ syncData uB none [uA, uB] [mAB] (syncData uB none [uA, uB] [mAB] [cAB]) →
      ((mergeChat uB none [mAB] cAB).messages.map Message.id).Nodup) := by
  have h := syncData_idempotent_nodup uB none [uA, uB] [mAB] [cAB]
    (by decide) (by decide)
  refine ⟨?_, h.2.1 cAB, fun hmem => h.2.2 _ hmem⟩
  have h1 := h.1 cAB mL1 (by decide)
  simpa using h1

/-! ### C1: the direct-chat attribution rule -/

/-- Sample user with id `p0`. -/
def uP0 : User := { id := "p0", nickname := "P0", language := "English" }

/-- Sample user with id `p1`. -/
def uP1 : User := { id := "p1", nickname := "P1", language := "English" }

/-- Sample direct chat between `uP0` and `uP1`. -/
def cP : Chat :=
  { id := "p0_p1", name := "P1", type := ChatType.direct
    participants := [uP0, uP1], messages := [], unreadCount := 0 }

/-- Sample group chat. -/
def cG : Chat :=
  { id := "grp", name := "Group", type := ChatType.group
    participants := [uP0, uP1], messages := [], unreadCount := 0 }

/-- A message carrying an empty-string `recipientId`. -/
def mEmptyRec : Message :=
  { id := "x1", senderId := "p0", recipientId := some ""
    content := "hi", type := MessageType.TEXT, timestamp := 1 }

/-- A message from `p0` addressed to `p1`. -/
def mP : Message :=
  { id := "x2", senderId := "p0", recipientId := some "p1"
    content := "hi", type := MessageType.TEXT, timestamp := 2 }

/-- Counterexample to C1 as stated: `mEmptyRec` carries a
`recipientId` (the empty string), the strict bidirectional pair match
fails, yet the code attributes the message to the chat, because the
JavaScript truthiness test `if (m.recipientId)` sends an
empty-string recipient to the legacy branch. -/
theorem isAttributed_empty_recipient :
    cP.type = ChatType.direct ∧
    cP.participants.map User.id = ["p0", "p1"] ∧
    mEmptyRec.recipientId = some "" ∧
    isAttributed cP mEmptyRec = true ∧
    ¬((mEmptyRec.senderId = "p0" ∧ mEmptyRec.recipientId = some "p1") ∨
      (mEmptyRec.senderId = "p1" ∧ mEmptyRec.recipientId = some "p0")) := by
  decide

/-- C1 (amended): for a direct chat whose stored participant id pair
is `(p0, p1)`: a message with a truthy (present and nonempty)
`recipientId` is attributed iff the strict bidirectional pair match
holds; a message whose `recipientId` is absent or empty is attributed
iff its sender is `p0` or `p1` and some participant's id differs from
the sender; and no message is ever attributed to a non-direct chat. -/
theorem isAttributed_rule :
    (∀ (chat : Chat) (m : Message) (p0 p1 : String),
      chat.type = ChatType.direct →
      chat.participants.map User.id = [p0, p1] →
      ((truthyId m.recipientId = true →
        (isAttributed chat m = true ↔
          ((m.senderId = p0 ∧ m.recipientId = some p1) ∨
           (m.senderId = p1 ∧ m.recipientId = some p0)))) ∧
       (truthyId m.recipientId = false →
        (isAttributed chat m = true ↔
          ((m.senderId = p0 ∨ m.senderId = p1) ∧
           ∃ p ∈ chat.participants, p.id ≠ m.senderId))))) ∧
    (∀ (chat : Chat) (m : Message), chat.type ≠ ChatType.direct →
      isAttributed chat m = false) := by
  constructor
  · intro chat m p0 p1 htype hmap
    obtain ⟨cid, cname, ctype, cparts, cmsgs, cav, cun, clast⟩ := chat
    simp only at htype hmap ⊢
    subst htype
    rcases cparts with _ | ⟨q0, _ | ⟨q1, _ | ⟨q2, rest⟩⟩⟩
    · simp at hmap
    · simp at hmap
    swap
    · simp at hmap
    obtain ⟨h0, h1⟩ : q0.id = p0 ∧ q1.id = p1 := by simpa using hmap
    subst h0 h1
    constructor
    · intro htru
      simp only [isAttributed, htru, if_true, List.map_cons, List.map_nil,
        List.get?, Bool.or_eq_true, Bool.and_eq_true, beq_iff_eq,
        Option.some.injEq]
      aesop
    · intro hfal
      simp only [isAttributed, hfal, Bool.false_eq_true, if_false,
        List.map_cons, List.map_nil, List.get?, Bool.or_eq_true,
        Bool.and_eq_true, beq_iff_eq, List.any_cons, List.any_nil,
        Bool.not_eq_true', beq_eq_false_iff_ne, ne_eq, Bool.or_false,
        List.mem_cons, List.not_mem_nil, or_false]
      aesop
  · intro chat m htype
    unfold isAttributed
    cases hct : chat.type with
    | direct => exact absurd hct htype
    | group => rfl
    | channel => rfl

/-- Witness for C1 (amended) on `cP`, `mP`, `mEmptyRec` and `cG`. -/
theorem isAttributed_rule_witness :
    (isAttributed cP mP = true ↔
      ((mP.senderId = "p0" ∧ mP.recipientId = some "p1") ∨
       (mP.senderId = "p1" ∧ mP.recipientId = some "p0"))) ∧
    (isAttributed cP mEmptyRec = true ↔
      ((mEmptyRec.senderId = "p0" ∨ mEmptyRec.senderId = "p1") ∧
       ∃ p ∈ cP.participants, p.id ≠ mEmptyRec.senderId)) ∧
    isAttributed cG mP = false :=
  ⟨(isAttributed_rule.1 cP mP "p0" "p1" rfl (by decide)).1 (by decide),
   (isAttributed_rule.1 cP mEmptyRec "p0" "p1" rfl (by decide)).2 (by decide),
   isAttributed_rule.2 cG mP (by decide)⟩

/-! ### C2: chat discovery from incoming messages -/

/-- The chat synthesized by discovery for a viewer and a resolved
sender, exactly as the object literal in `syncData` builds it. -/
def targetChat (user sender : User) : Chat :=
  { id := getDirectChatId user.id sender.id, name := sender.nickname,
    type := ChatType.direct, participants := [user, sender],
    messages := [], unreadCount := 0 }

/-- One discovery step preserves the filtered view on the target pair
id: it stays empty or exactly the synthesized target chat; processing
the triggering message itself establishes the target; an established
target persists.  Requires that no other incoming message resolves to
a sender whose pair id with the viewer collides with the target. -/
lemma discoverStep_filter
    (user sender : User) (allUsers : List User) (allMessages : List Message) (m : Message)
    (hsender : allUsers.find? (fun u => u.id == m.senderId) = some sender)
    (hnocoll : ∀ m' ∈ allMessages, ∀ s' ∈ allUsers, m'.recipientId = some user.id →
      s'.id = m'.senderId →
      getDirectChatId user.id s'.id = getDirectChatId user.id sender.id →
      s'.id = sender.id)
    (msg : Message) (hmsg : msg ∈ allMessages) (hmsgrec : msg.recipientId = some user.id)
    (acc : List Chat)
    (hacc : acc.filter (fun c => c.id == getDirectChatId user.id sender.id) = [] ∨
      acc.filter (fun c => c.id == getDirectChatId user.id sender.id)
        = [targetChat user sender]) :
    ((discoverStep user allUsers acc msg).filter
        (fun c => c.id == getDirectChatId user.id sender.id) = [] ∨
     (discoverStep user allUsers acc msg).filter
        (fun c => c.id == getDirectChatId user.id sender.id) = [targetChat user sender]) ∧
    (msg = m → (discoverStep user allUsers acc msg).filter
        (fun c => c.id == getDirectChatId user.id sender.id) = [targetChat user sender]) ∧
    (acc.filter (fun c => c.id == getDirectChatId user.id sender.id)
        = [targetChat user sender] →
      (discoverStep user allUsers acc msg).filter
        (fun c => c.id == getDirectChatId user.id sender.id) = [targetChat user sender]) := by
  cases hfind : allUsers.find? (fun u => u.id == msg.senderId) with
  | none =>
    have hstep : discoverStep user allUsers acc msg = acc := by
      unfold discoverStep
      rw [hfind]
    rw [hstep]
    refine ⟨hacc, ?_, fun h => h⟩
    rintro rfl
    rw [hsender] at hfind
    exact absurd hfind (by simp)
  | some s' =>
    have hs'mem : s' ∈ allUsers := List.mem_of_find?_eq_some hfind
    have hs'id : s'.id = msg.senderId := by
      have := List.find?_some hfind
      simpa using this
    by_cases hnone : (acc.find? (fun c =>
        c.id == getDirectChatId user.id s'.id)).isNone = true
    · have hstep : discoverStep user allUsers acc msg
          = acc ++ [targetChat user s'] := by
        unfold discoverStep
        rw [hfind]
        simp only [hnone, if_true]
        rfl
      by_cases hcid : getDirectChatId user.id s'.id = getDirectChatId user.id sender.id
      · -- the pushed chat has the target id; the no-collision hypothesis pins the sender
        have hsid : s'.id = sender.id :=
          hnocoll msg hmsg s' hs'mem hmsgrec hs'id hcid
        have hsend' : msg.senderId = m.senderId := by
          have h1 : sender.id = m.senderId := by
            have := List.find?_some hsender
            simpa using this
          rw [← hs'id, hsid, h1]
        have hfind' : allUsers.find? (fun u => u.id == msg.senderId) = some sender := by
          have := congrArg (fun sid => allUsers.find? (fun u => u.id == sid)) hsend'
          simp only at this
          rw [this, hsender]
        have hs'sender : s' = sender := by
          rw [hfind'] at hfind
          exact (Option.some.inj hfind).symm
        subst hs'sender
        have hcontr : acc.filter (fun c => c.id == getDirectChatId user.id s'.id)
            = [targetChat user s'] → False := by
          intro h
          have hall : ∀ c ∈ acc, ¬ (c.id == getDirectChatId user.id s'.id) = true := by
            rw [← List.find?_eq_none]
            simpa using hnone
          have hmem : targetChat user s' ∈ acc.filter
              (fun c => c.id == getDirectChatId user.id s'.id) := by
            rw [h]; exact List.mem_singleton.mpr rfl
          exact hall _ (List.mem_filter.mp hmem).1 (List.mem_filter.mp hmem).2
        have haccnil : acc.filter (fun c => c.id == getDirectChatId user.id s'.id)
            = [] := by
          rcases hacc with h | h
          · exact h
          · exact absurd h hcontr
        rw [hstep, List.filter_append, haccnil, List.nil_append]
        refine ⟨?_, ?_, ?_⟩
        · right
          simp [targetChat]
        · intro hmm
          simp [targetChat]
        · intro h
          exact absurd h (by simp)
      · -- pushed chat has a different id: the filter ignores it
        have hpredf : ((targetChat user s').id
              == getDirectChatId user.id sender.id) = false := by
          simpa [targetChat] using hcid
        have hfilters : (discoverStep user allUsers acc msg).filter
            (fun c => c.id == getDirectChatId user.id sender.id)
              = acc.filter (fun c => c.id == getDirectChatId user.id sender.id) := by
          rw [hstep, List.filter_append]
          simp [hpredf]
        rw [hfilters]
        refine ⟨hacc, ?_, fun h => h⟩
        rintro rfl
        rw [hsender] at hfind
        have : s' = sender := (Option.some.inj hfind).symm
        subst this
        exact absurd rfl hcid
    · -- a chat with this id already exists: nothing is pushed
      have hstep : discoverStep user allUsers acc msg = acc := by
        unfold discoverStep
        rw [hfind]
        simp only [hnone, if_false, Bool.false_eq_true]
      rw [hstep]
      refine ⟨hacc, ?_, fun h => h⟩
      rintro rfl
      rw [hsender] at hfind
      have hss : s' = sender := (Option.some.inj hfind).symm
      subst hss
      rcases hacc with h | h
      · exfalso
        have hfn : acc.find? (fun c => c.id == getDirectChatId user.id s'.id) = none := by
          rw [List.find?_eq_none]
          intro x hx
          have := List.filter_eq_nil_iff.mp h x hx
          simpa using this
        rw [hfn] at hnone
        simp at hnone
      · exact h

/-- The whole discovery fold produces exactly the target chat once
the triggering message has been processed. -/
lemma discoverFold_filter
    (user sender : User) (allUsers : List User) (allMessages : List Message) (m : Message)
    (hsender : allUsers.find? (fun u => u.id == m.senderId) = some sender)
    (hnocoll : ∀ m' ∈ allMessages, ∀ s' ∈ allUsers, m'.recipientId = some user.id →
      s'.id = m'.senderId →
      getDirectChatId user.id s'.id = getDirectChatId user.id sender.id →
      s'.id = sender.id) :
    ∀ (msgs : List Message) (acc : List Chat),
      (∀ msg ∈ msgs, msg ∈ allMessages ∧ msg.recipientId = some user.id) →
      (acc.filter (fun c => c.id == getDirectChatId user.id sender.id) = [] ∨
        acc.filter (fun c => c.id == getDirectChatId user.id sender.id)
          = [targetChat user sender]) →
      ((m ∈ msgs ∨ acc.filter (fun c => c.id == getDirectChatId user.id sender.id)
          = [targetChat user sender]) →
        (msgs.foldl (discoverStep user allUsers) acc).filter
          (fun c => c.id == getDirectChatId user.id sender.id)
            = [targetChat user sender]) := by
  intro msgs
  induction msgs with
  | nil =>
    intro acc hmsgs hacc hmem
    rcases hmem with h | h
    · exact absurd h (List.not_mem_nil m)
    · simpa using h
  | cons msg rest ih =>
    intro acc hmsgs hacc hmem
    have hmsghead := hmsgs msg (List.mem_cons_self msg rest)
    have hstep := discoverStep_filter user sender allUsers allMessages m hsender hnocoll
      msg hmsghead.1 hmsghead.2 acc hacc
    rw [List.foldl_cons]
    have hrest : ∀ msg' ∈ rest, msg' ∈ allMessages ∧ msg'.recipientId = some user.id :=
      fun msg' h => hmsgs msg' (List.mem_cons_of_mem msg h)
    rcases hmem with h | h
    · rcases List.mem_cons.mp h with h' | h'
      · exact ih (discoverStep user allUsers acc msg) hrest hstep.1
          (Or.inr (hstep.2.1 h'.symm))
      · exact ih (discoverStep user allUsers acc msg) hrest hstep.1 (Or.inl h')
    · exact ih (discoverStep user allUsers acc msg) hrest hstep.1
        (Or.inr (hstep.2.2 h))

/-- C2 (amended): for every global message addressed to the viewer
whose sender resolves in the global user registry, if no chat with
the deterministic pair id exists yet, discovery creates exactly one
chat with that id, carrying the sender's nickname, direct type,
participants exactly `[viewer, sender]`, an empty message list and
zero unread — provided no other incoming message resolves to a
sender with a different id whose sorted-pair join with the viewer's
id collides with the triggering sender's (possible when ids contain
the underscore separator). -/
theorem discoverChats_creates (user sender : User) (allUsers : List User)
    (allMessages : List Message) (prevChats : List Chat) (m : Message)
    (hm : m ∈ allMessages)
    (hrec : m.recipientId = some user.id)
    (hsender : allUsers.find? (fun u => u.id == m.senderId) = some sender)
    (hnew : ∀ c ∈ prevChats, c.id ≠ getDirectChatId user.id sender.id)
    (hnocoll : ∀ m' ∈ allMessages, ∀ s' ∈ allUsers, m'.recipientId = some user.id →
      s'.id = m'.senderId →
      getDirectChatId user.id s'.id = getDirectChatId user.id sender.id →
      s'.id = sender.id) :
    (discoverChats user allUsers allMessages prevChats).filter
        (fun c => c.id == getDirectChatId user.id sender.id)
      = [targetChat user sender] := by
  unfold discoverChats
  have hmsgs : ∀ msg ∈ allMessages.filter (fun x => x.recipientId == some user.id),
      msg ∈ allMessages ∧ msg.recipientId = some user.id := by
    intro msg hmsg
    refine ⟨List.mem_of_mem_filter hmsg, ?_⟩
    have := List.of_mem_filter hmsg
    simpa using this
  have hprev : prevChats.filter (fun c => c.id == getDirectChatId user.id sender.id)
      = [] := by
    rw [List.filter_eq_nil_iff]
    intro c hc
    simpa using hnew c hc
  have hmm : m ∈ allMessages.filter (fun x => x.recipientId == some user.id) :=
    List.mem_filter.mpr ⟨hm, by simpa using hrec⟩
  exact discoverFold_filter user sender allUsers allMessages m hsender hnocoll
    (allMessages.filter (fun x => x.recipientId == some user.id)) prevChats
    hmsgs (Or.inl hprev) (Or.inl hmm)

/-- Witness viewer for C2. -/
def wViewer : User := { id := "a", nickname := "Ada", language := "English" }

/-- Witness message from `uB` to `wViewer`. -/
def mBA : Message :=
  { id := "g2", senderId := "b", recipientId := some "a"
    content := "hey", type := MessageType.TEXT, timestamp := 7 }

/-- Witness for C2 (amended) on a single incoming message. -/
theorem discoverChats_creates_witness :
    (discoverChats wViewer [uB] [mBA] []).filter
        (fun c => c.id == getDirectChatId wViewer.id uB.id)
      = [targetChat wViewer uB] := by
  refine discoverChats_creates wViewer uB [uB] [mBA] [] mBA (by simp) (by decide)
    (by decide) (by simp) ?_
  intro m' hm' s' hs' h1 h2 h3
  simp only [List.mem_singleton] at hs'
  subst hs'
  rfl

/-- Colliding viewer: the id `"_b_"` pairs with both `"_b"` and
`"b_"` to the same joined string `"_b__b_"`. -/
def vC2 : User := { id := "_b_", nickname := "Vic", language := "English" }

/-- First colliding sender. -/
def uAnn : User := { id := "_b", nickname := "Anna", language := "English" }

/-- Second colliding sender. -/
def uBen : User := { id := "b_", nickname := "Ben", language := "English" }

/-- Message from `uAnn` to the colliding viewer. -/
def mAnn : Message :=
  { id := "ga", senderId := "_b", recipientId := some "_b_"
    content := "1", type := MessageType.TEXT, timestamp := 1 }

/-- Message from `uBen` to the colliding viewer. -/
def mBen : Message :=
  { id := "gb", senderId := "b_", recipientId := some "_b_"
    content := "2", type := MessageType.TEXT, timestamp := 2 }

/-- The chat discovery actually creates in the collision scenario:
it belongs to `uAnn`, not `uBen`. -/
def collChat : Chat :=
  { id := "_b__b_", name := "Anna", type := ChatType.direct
    participants := [vC2, uAnn], messages := [], unreadCount := 0 }

/-- Pair id of the colliding viewer with `uAnn`. -/
lemma gidAnn : getDirectChatId "_b_" "_b" = "_b__b_" := by
  have h : ¬ (("_b_" : String) ≤ "_b") := fun hh => by
    have := String.le_iff_toList_le.mp hh
    revert this
    decide
  unfold getDirectChatId
  rw [if_neg h]
  rfl

/-- Pair id of the colliding viewer with `uBen`. -/
lemma gidBen : getDirectChatId "_b_" "b_" = "_b__b_" := by
  have h : (("_b_" : String) ≤ "b_") := String.le_iff_toList_le.mpr (by decide)
  unfold getDirectChatId
  rw [if_pos h]
  rfl

/-- Counterexample to C2 as stated: the message `mBen` is addressed
to the viewer, its sender `uBen` resolves in the registry, and no
prior chat carries the pair id, yet discovery does not create the
chat `[viewer, uBen]` with that id — the chat with that id belongs to
`uAnn`, whose pair id with the viewer collides. -/
theorem discoverChats_collision :
    mBen.recipientId = some vC2.id ∧
    ([uAnn, uBen].find? (fun u => u.id == mBen.senderId)) = some uBen ∧
    (∀ c ∈ ([] : List Chat), c.id ≠ getDirectChatId vC2.id uBen.id) ∧
    (discoverChats vC2 [uAnn, uBen] [mAnn, mBen] []).filter
        (fun c => c.id == getDirectChatId vC2.id uBen.id)
      ≠ [targetChat vC2 uBen] := by
  refine ⟨rfl, by decide, by simp, ?_⟩
  have hres : discoverChats vC2 [uAnn, uBen] [mAnn, mBen] [] = [collChat] := by
    simp [discoverChats, discoverStep, vC2, uAnn, uBen, mAnn, mBen, gidAnn, gidBen,
      collChat]
  rw [hres]
  show ([collChat].filter (fun c => c.id == getDirectChatId "_b_" "b_")) ≠ _
  rw [gidBen]
  simp [collChat, targetChat, vC2, uAnn, uBen]

/-! ### C9: translation failure on the send path -/

/-- A direct chat with a literal id, used for the send-path claims. -/
def cLit : Chat :=
  { id := "ab", name := "Bob", type := ChatType.direct
    participants := [uA, uB], messages := [], unreadCount := 0 }

/-- Counterexample to C9 as stated: in a direct chat whose recipient
speaks another language, a failing collaborator call still yields a
message carrying `translatedContent` — the original text annotated as
failed — not an untranslated message with no translated content. -/
theorem sendMessage_translation_failure_content :
    cLit.type = ChatType.direct ∧
    cLit.participants.find? (fun p => !(p.id == uA.id)) = some uB ∧
    uB.language ≠ uA.language ∧
    (buildMessage uA cLit "Hello" MessageType.TEXT "m9" 9
        (Except.error "boom")).translatedContent
      = some "Hello (Translation Failed)" ∧
    (buildMessage uA cLit "Hello" MessageType.TEXT "m9" 9
        (Except.error "boom")).translatedContent ≠ none := by
  decide

/-- C9 (amended): when auto-translation is triggered and the
collaborator call fails, the failure is caught inside
`translateMessage` (which never rejects), the message is still
constructed and sent — appended to the active chat and to the global
log — and its `translatedContent` is the original text annotated as
failed; the send flow is never interrupted. -/
theorem sendMessage_translation_failure (user : User) (chats : List Chat)
    (cid : String) (globalLog : List Message) (content : String)
    (newId : String) (now : Nat) (err : String) (chat : Chat) (recipient : User)
    (hchat : chats.find? (fun c => c.id == cid) = some chat)
    (hdirect : chat.type = ChatType.direct)
    (hrecip : chat.participants.find? (fun p => !(p.id == user.id)) = some recipient)
    (hlang1 : recipient.language ≠ "")
    (hlang2 : recipient.language ≠ user.language) :
    (buildMessage user chat content MessageType.TEXT newId now
        (Except.error err)).translatedContent
      = some (content ++ " (Translation Failed)") ∧
    handleSendMessage user chats (some cid) globalLog content MessageType.TEXT
        newId now (Except.error err)
      = some (chats.map (fun c =>
          if c.id == cid then
            { c with
              messages := c.messages ++ [buildMessage user chat content
                MessageType.TEXT newId now (Except.error err)]
              lastMessage := some (buildMessage user chat content
                MessageType.TEXT newId now (Except.error err)) }
          else c),
        saveGlobalMessage globalLog (buildMessage user chat content
          MessageType.TEXT newId now (Except.error err))) := by
  constructor
  · simp [buildMessage, translateMessage, hdirect, hrecip, hlang1, hlang2]
  · unfold handleSendMessage
    simp only [hchat]

/-- Witness for C9 (amended) on a concrete failing send. -/
theorem sendMessage_translation_failure_witness :
    (buildMessage uA cLit "Hello" MessageType.TEXT "m9" 9
        (Except.error "boom")).translatedContent
      = some ("Hello" ++ " (Translation Failed)") ∧
    handleSendMessage uA [cLit] (some "ab") [] "Hello" MessageType.TEXT "m9" 9
        (Except.error "boom")
      = some ([cLit].map (fun c =>
          if c.id == "ab" then
            { c with
              messages := c.messages ++ [buildMessage uA cLit "Hello"
                MessageType.TEXT "m9" 9 (Except.error "boom")]
              lastMessage := some (buildMessage uA cLit "Hello"
                MessageType.TEXT "m9" 9 (Except.error "boom")) }
          else c),
        saveGlobalMessage [] (buildMessage uA cLit "Hello"
          MessageType.TEXT "m9" 9 (Except.error "boom"))) :=
  sendMessage_translation_failure uA [cLit] "ab" [] "Hello" "m9" 9 "boom" cLit uB
    (by decide) rfl (by decide) (by decide) (by decide)

/-! ### C10: local deletion does not survive reconciliation -/

/-- C10: for a chat holding a message `m` that remains in the global
log and satisfies the chat's attribution rule, deleting `m` locally
and reconciling re-inserts `m` into the chat with that id, and counts
it toward unread when `m` was not sent by the viewer and the chat is
not active. -/
theorem deleteMessage_not_durable (user : User) (activeChatId : Option String)
    (allUsers : List User) (allMessages : List Message) (chats : List Chat)
    (chat : Chat) (m : Message)
    (hmem : chat ∈ chats) (hM : m ∈ allMessages)
    (hatt : isAttributed chat m = true) :
    ∃ c' ∈ syncData user activeChatId allUsers allMessages
        (deleteMessage chats chat.id m.id),
      c'.id = chat.id ∧ m ∈ c'.messages ∧
      (m.senderId ≠ user.id → activeChatId ≠ some chat.id →
        chat.unreadCount < c'.unreadCount) := by
  set dchat : Chat :=
    { chat with messages := chat.messages.filter (fun x => !(x.id == m.id)) }
    with hdchat
  have hdmem : dchat ∈ deleteMessage chats chat.id m.id := by
    unfold deleteMessage
    have := List.mem_map_of_mem (fun c =>
      if c.id == chat.id then
        { c with messages := c.messages.filter (fun x => !(x.id == m.id)) }
      else c) hmem
    simpa using this
  have hattd : isAttributed dchat m = true := by
    rw [isAttributed_congr dchat chat m rfl rfl]
    exact hatt
  have hnotin : m.id ∉ dchat.messages.map Message.id := by
    intro hin
    obtain ⟨x, hx, hxid⟩ := List.mem_map.mp hin
    have hpred := (List.mem_filter.mp hx).2
    rw [hxid] at hpred
    simp at hpred
  have hnew : m ∈ newMessagesFor allMessages dchat := by
    unfold newMessagesFor
    refine List.mem_filter.mpr ⟨List.mem_filter.mpr ⟨hM, hattd⟩, ?_⟩
    have : (dchat.messages.map Message.id).contains m.id = false :=
      Bool.eq_false_iff.mpr (fun hc => hnotin (contains_iff.mp hc))
    simp [this]
  have hne : newMessagesFor allMessages dchat ≠ [] := by
    intro h
    rw [h] at hnew
    exact absurd hnew (List.not_mem_nil m)
  have hpos : (newMessagesFor allMessages dchat).length > 0 := List.length_pos.mpr hne
  refine ⟨mergeChat user activeChatId allMessages dchat, ?_, ?_, ?_, ?_⟩
  · unfold syncData
    obtain ⟨d, hd, -⟩ := discoverChats_append user allUsers allMessages
      (deleteMessage chats chat.id m.id)
    rw [hd]
    exact List.mem_map_of_mem _ (List.mem_append_left d hdmem)
  · rw [mergeChat_id]
  · have hperm := (mergeChat_sort user activeChatId allMessages dchat hne).1
    rw [hperm.mem_iff, List.mem_append]
    exact Or.inr hnew
  · intro hs hact
    have hmkt : m ∈ (newMessagesFor allMessages dchat).filter
        (fun x => !(x.senderId == user.id)) := by
      refine List.mem_filter.mpr ⟨hnew, ?_⟩
      simp [hs]
    have hcnt : 0 < ((newMessagesFor allMessages dchat).filter
        (fun x => !(x.senderId == user.id))).length :=
      List.length_pos.mpr (List.ne_nil_of_mem hmkt)
    unfold mergeChat
    rw [if_pos hpos]
    simp only
    rw [if_pos ⟨hact, hcnt⟩]
    omega

/-- Witness for C10: the viewer `uB` deletes `mAB` from `cAB`; the
next reconciliation run restores it. -/
theorem deleteMessage_not_durable_witness :
    ∃ c' ∈ syncData uB none [uA, uB] [mAB] (deleteMessage [cAB] cAB.id mAB.id),
      c'.id = cAB.id ∧ mAB ∈ c'.messages ∧
      (mAB.senderId ≠ uB.id → none ≠ some cAB.id →
        cAB.unreadCount < c'.unreadCount) :=
  deleteMessage_not_durable uB none [uA, uB] [mAB] [cAB] cAB mAB
    (List.mem_singleton.mpr rfl) (List.mem_singleton.mpr rfl) (by decide)

end PrepTalk
